import Mathlib

/-!
Shallow embedding of the core logic of the `aws-annoying` repository:

* the ECS deployment waiter and its three polling loops
  (`src/aws_annoying/ecs/deployment_waiter.py`), and
* the variable loading/merging pipeline (`src/aws_annoying/load_variables.py`).

AWS backend calls are modelled as response oracles (`Nat → _`, indexed by the
number of queries issued so far), `time.sleep` is modelled by counting sleep
calls, and each `while` loop is unfolded with an explicit fuel parameter: the
outer `Option` is `none` when the fuel is exhausted, which stands for a loop
that has not yet terminated within `fuel` iterations.
-/

namespace AwsAnnoying

/-- The loop guard `(max_attempts is None) or (attempts <= max_attempts)` shared by the
three polling loops of `ECSDeploymentWaiter` (`deployment_waiter.py` lines 124, 172, 216). -/
def loopCond : Option Nat → Nat → Bool
  | none, _ => true
  | some n, attempts => decide (attempts ≤ n)

/-- The three classes the status branch of `wait_for_deployment_complete` distinguishes:
terminal success (`return (True, status)`), keep polling (`PENDING`/`IN_PROGRESS`), and
terminal failure (`break`, then `return (False, status)`). -/
inductive PollClass
  | success
  | cont
  | failure
deriving DecidableEq, Repr

/-- Status classification performed inline by `wait_for_deployment_complete`
(`deployment_waiter.py` lines 176-187): first `status == "SUCCESSFUL"`, then
`status in ("PENDING", "IN_PROGRESS")`, otherwise the `else: break` branch. -/
def classifyStatus (status : String) : PollClass :=
  if status = "SUCCESSFUL" then .success
  else if status = "PENDING" ∨ status = "IN_PROGRESS" then .cont
  else .failure

/-- Result of `wait_for_deployment_complete`: `returned ok status queries sleeps` records
the returned pair together with the number of `describe_service_deployments` queries and
`sleep` calls issued. `unboundLocal` is Python's `NameError` when the loop body never ran
and `status` is read after the loop (unreachable from entry, where `attempts = 0` always
satisfies the guard). -/
inductive CompleteResult
  | returned (ok : Bool) (status : String) (queries sleeps : Nat)
  | unboundLocal
deriving DecidableEq, Repr

/-- The `while` loop of `wait_for_deployment_complete` (`deployment_waiter.py` lines
171-192). `statusQuery k` is the status carried by the `k`-th response; `attempts` is the
loop counter and `last` the current value of the Python local `status`. -/
def completeLoop (statusQuery : Nat → String) (maxAttempts : Option Nat) :
    Nat → Nat → Option String → Option CompleteResult
  | 0, _, _ => none
  | fuel + 1, attempts, last =>
    if loopCond maxAttempts attempts then
      let status := statusQuery attempts
      match classifyStatus status with
      | .success => some (.returned true status (attempts + 1) attempts)
      | .cont => completeLoop statusQuery maxAttempts fuel (attempts + 1) (some status)
      | .failure => some (.returned false status (attempts + 1) attempts)
    else
      match last with
      | some status => some (.returned false status attempts attempts)
      | none => some .unboundLocal

/-- `ECSDeploymentWaiter.wait_for_deployment_complete`, from entry
(`attempts = 0`, no status observed yet). -/
def wait_for_deployment_complete (statusQuery : Nat → String) (maxAttempts : Option Nat)
    (fuel : Nat) : Option CompleteResult :=
  completeLoop statusQuery maxAttempts fuel 0 none

/-- Result of `get_latest_deployment_arn`: `found arn queries sleeps` is the normal return;
`exitZero` is the `raise typer.Exit(0)` taken when `wait_for_start` is false and no
deployment is running; `indexError` is Python's `IndexError` from
`running_deployments[0]` when the loop exhausts its attempts with the last response still
empty; `unboundLocal` as in `CompleteResult` (unreachable from entry). -/
inductive LocateResult
  | found (arn : String) (queries sleeps : Nat)
  | exitZero (queries sleeps : Nat)
  | indexError (queries sleeps : Nat)
  | unboundLocal
deriving DecidableEq, Repr

/-- The `while` loop of `get_latest_deployment_arn` (`deployment_waiter.py` lines
123-149). `listQuery k` is the `serviceDeployments` list (projected to deployment ARNs)
of the `k`-th `list_service_deployments` response; `last` is the current value of the
Python local `running_deployments`, which `running_deployments[0]` reads after the loop. -/
def locateLoop (listQuery : Nat → List String) (waitForStart : Bool)
    (maxAttempts : Option Nat) : Nat → Nat → Option (List String) → Option LocateResult
  | 0, _, _ => none
  | fuel + 1, attempts, last =>
    if loopCond maxAttempts attempts then
      match listQuery attempts with
      | arn :: _ => some (.found arn (attempts + 1) attempts)
      | [] =>
        if waitForStart then
          locateLoop listQuery waitForStart maxAttempts fuel (attempts + 1) (some [])
        else some (.exitZero (attempts + 1) attempts)
    else
      match last with
      | some (arn :: _) => some (.found arn attempts attempts)
      | some [] => some (.indexError attempts attempts)
      | none => some .unboundLocal

/-- `ECSDeploymentWaiter.get_latest_deployment_arn`, from entry. -/
def get_latest_deployment_arn (listQuery : Nat → List String) (waitForStart : Bool)
    (maxAttempts : Option Nat) (fuel : Nat) : Option LocateResult :=
  locateLoop listQuery waitForStart maxAttempts fuel 0 none

/-- One response of the backend `services_stable` waiter invoked with `MaxAttempts = 1`:
either it returns normally or it raises `botocore.exceptions.WaiterError` with the given
`reason` string. -/
inductive StabilityResponse
  | ok
  | waiterError (reason : String)
deriving DecidableEq, Repr

/-- Result of `wait_for_service_stability`: `stable`/`notStable` are the `True`/`False`
returns, `raised reason` is a re-raised `WaiterError` whose reason is not
`"Max attempts exceeded"`. -/
inductive StabilityResult
  | stable (queries sleeps : Nat)
  | notStable (queries sleeps : Nat)
  | raised (reason : String) (queries sleeps : Nat)
deriving DecidableEq, Repr

/-- The `while` loop of `wait_for_service_stability` (`deployment_waiter.py` lines
215-237): on success return `True`; on a `WaiterError` whose reason differs from
`"Max attempts exceeded"` re-raise; otherwise sleep, bump the counter and retry;
on guard exhaustion return `False`. -/
def stabilityLoop (stabilityQuery : Nat → StabilityResponse) (maxAttempts : Option Nat) :
    Nat → Nat → Option StabilityResult
  | 0, _ => none
  | fuel + 1, attempts =>
    if loopCond maxAttempts attempts then
      match stabilityQuery attempts with
      | .ok => some (.stable (attempts + 1) attempts)
      | .waiterError reason =>
        if reason ≠ "Max attempts exceeded" then some (.raised reason (attempts + 1) attempts)
        else stabilityLoop stabilityQuery maxAttempts fuel (attempts + 1)
    else some (.notStable attempts attempts)

/-- `ECSDeploymentWaiter.wait_for_service_stability`, from entry. -/
def wait_for_service_stability (stabilityQuery : Nat → StabilityResponse)
    (maxAttempts : Option Nat) (fuel : Nat) : Option StabilityResult :=
  stabilityLoop stabilityQuery maxAttempts fuel 0

/-- `ECSDeploymentWaiter.assert_service_task_definition_is` (`deployment_waiter.py`
lines 239-257): compares the service's current task definition ARN with the expected one
by string equality and returns both the verdict and the current ARN. -/
def assert_service_task_definition_is (expect currentTaskDefinition : String) :
    Bool × String :=
  (currentTaskDefinition == expect, currentTaskDefinition)

/-- Outcome of the `wait` orchestration: normal completion, `DeploymentFailedError`
carrying the terminal status, the `typer.Exit(0)` taken inside `get_latest_deployment_arn`,
the `IndexError`/`NameError` escape paths of that phase, a propagated `WaiterError` from
the stability phase, or the `typer.Exit(1)` on a task definition mismatch. -/
inductive WaitOutcome
  | completed
  | deploymentFailed (status : String)
  | noRunningDeployments
  | locateIndexError
  | unboundLocal
  | stabilityRaised (reason : String)
  | taskDefinitionMismatch (actual : String)
deriving DecidableEq, Repr

/-- `ECSDeploymentWaiter.wait` (`deployment_waiter.py` lines 37-101): locate the running
deployment, wait for completion (raising `DeploymentFailedError` on a `(False, status)`
result), optionally wait for stability (the boolean result is ignored by the source, only
exceptions propagate), then optionally check the task definition. All three polling phases
are invoked with `max_attempts = None` exactly as in the source. -/
def wait (listQuery : Nat → List String) (statusQuery : Nat → String)
    (stabilityQuery : Nat → StabilityResponse) (waitForStart waitForStability : Bool)
    (expectedTaskDefinition : Option String) (currentTaskDefinition : String)
    (fuelLocate fuelComplete fuelStability : Nat) : Option WaitOutcome :=
  match get_latest_deployment_arn listQuery waitForStart none fuelLocate with
  | none => none
  | some (.exitZero _ _) => some .noRunningDeployments
  | some (.indexError _ _) => some .locateIndexError
  | some .unboundLocal => some .unboundLocal
  | some (.found _ _ _) =>
    match wait_for_deployment_complete statusQuery none fuelComplete with
    | none => none
    | some .unboundLocal => some .unboundLocal
    | some (.returned ok status _ _) =>
      if ok then
        match (if waitForStability
               then wait_for_service_stability stabilityQuery none fuelStability
               else some (.stable 0 0)) with
        | none => none
        | some (.raised reason _ _) => some (.stabilityRaised reason)
        | some _ =>
          match expectedTaskDefinition with
          | none => some .completed
          | some expect =>
            let result := assert_service_task_definition_is expect currentTaskDefinition
            if result.1 then some .completed
            else some (.taskDefinitionMismatch result.2)
      else some (.deploymentFailed status)

/-! ## Embedding of `load_variables.py` -/

/-- A flat decoded secret/parameter payload: variable name to value, in insertion order
(a Python `dict`). -/
abbrev Variables := List (String × String)

/-- One Python `dict` assignment `d[k] = v`: replace the value in place when the key is
present, otherwise append the binding (Python dicts preserve insertion order). -/
def dictSet (d : Variables) (k v : String) : Variables :=
  if d.any (fun kv => kv.1 == k) then
    d.map (fun kv => if kv.1 == k then (k, v) else kv)
  else d ++ [(k, v)]

/-- Python `dict.update(new)`: assign each binding of `new` in order. -/
def dictUpdate (d new : Variables) : Variables :=
  new.foldl (fun acc kv => dictSet acc kv.1 kv.2) d

/-- Python `s.startswith(pre)`: exact character prefix test. -/
def startsWithPy (s pre : String) : Bool :=
  pre.data.isPrefixOf s.data

/-- Python `<` on strings: lexicographic comparison of code points. -/
def pyStrLtCore : List Char → List Char → Bool
  | [], [] => false
  | _ :: _, [] => false
  | [], _ :: _ => true
  | a :: as, b :: bs => if a < b then true else if b < a then false else pyStrLtCore as bs

/-- Python `<` lifted to `String`. -/
def pyStrLt (a b : String) : Bool := pyStrLtCore a.data b.data

/-- The two fatal `ValueError`s raised by `_load_variables` before retrieval:
`"ARN of unsupported resource: ..."` (line 130-131) and
`"Keys in secrets and parameters MUST NOT conflict."` (line 134-135). -/
inductive LoadError
  | unsupportedResource (arn : String)
  | conflictingKeys
deriving DecidableEq, Repr

/-- The partition loop of `_load_variables` (`load_variables.py` lines 123-131): route
each `(order key, arn)` entry to the secrets map or the parameters map by ARN prefix,
failing on the first entry that matches neither prefix. -/
def splitArns :
    List (String × String) →
      Except LoadError (List (String × String) × List (String × String))
  | [] => .ok ([], [])
  | (idx, arn) :: rest =>
    if startsWithPy arn "arn:aws:secretsmanager:" then
      match splitArns rest with
      | .ok (s, p) => .ok ((idx, arn) :: s, p)
      | .error e => .error e
    else if startsWithPy arn "arn:aws:ssm:" then
      match splitArns rest with
      | .ok (s, p) => .ok (s, (idx, arn) :: p)
      | .error e => .error e
    else .error (.unsupportedResource arn)

/-- The pre-merge conflict check `secrets_map.keys() & parameters_map.keys()`
(`load_variables.py` line 133): do the two partitions share an order key? -/
def keysConflict (secretsMap parametersMap : List (String × String)) : Bool :=
  secretsMap.any (fun kv => parametersMap.any (fun kv2 => kv2.1 == kv.1))

/-- `_retrieve_secrets`/`_retrieve_parameters` with every backend item retrieved
successfully: each order key is mapped to the flat payload resolved from its ARN
(`load_variables.py` lines 156-213). The claims under study concern the partition,
conflict-check and merge logic, so retrieval is abstracted by the `resolve` oracle. -/
def retrieveAll (m : List (String × String)) (resolve : String → Variables) :
    List (String × Variables) :=
  m.map (fun kv => (kv.1, resolve kv.2))

/-- The order used by `sorted(full_variables.items())` (`load_variables.py` line 145):
ascending Python string comparison of the order keys. (For inputs coming from a Python
dict the order keys are distinct, so the tuple comparison never reaches the payloads.) -/
def keyLe (a b : String × Variables) : Prop :=
  pyStrLt a.1 b.1 = true ∨ a.1 = b.1

instance : DecidableRel keyLe := fun a b =>
  inferInstanceAs (Decidable (pyStrLt a.1 b.1 = true ∨ a.1 = b.1))

/-- `sorted(full_variables.items())`: sort the `(order key, payload)` pairs by order key. -/
def sortByKey (l : List (String × Variables)) : List (String × Variables) :=
  List.insertionSort keyLe l

/-- The merge loop of `_load_variables` (`load_variables.py` lines 144-146): start from the
empty dict and `update` with each payload in ascending order-key order. -/
def mergeInOrder (fullVariables : List (String × Variables)) : Variables :=
  (sortByKey fullVariables).foldl (fun acc kv => dictUpdate acc kv.2) []

/-- `_load_variables` (`load_variables.py` lines 111-148): partition the ARNs by prefix,
check the order-key conflict, retrieve both partitions (`full_variables = secrets |
parameters`, whose keys are disjoint by construction) and merge in order-key order. -/
def load_variables_core (mapArns : List (String × String)) (resolve : String → Variables) :
    Except LoadError Variables :=
  match splitArns mapArns with
  | .error e => .error e
  | .ok (secretsMap, parametersMap) =>
    if keysConflict secretsMap parametersMap then .error .conflictingKeys
    else .ok (mergeInOrder (retrieveAll secretsMap resolve ++ retrieveAll parametersMap resolve))

/-- The order-key assignment for positional `--arns` input (`load_variables.py` line 79):
`{str(idx): arn for idx, arn in enumerate(arns)}`. -/
def mapArnsByIndex (arns : List String) : List (String × String) :=
  arns.enum.map (fun ia => (toString ia.1, ia.2))

end AwsAnnoying

namespace AwsAnnoying

/-! ## Helper lemmas about the polling loops -/

theorem loopCond_zero (m : Option Nat) : loopCond m 0 = true := by
  cases m <;> simp [loopCond]

theorem loopCond_succ_self (n : Nat) : loopCond (some n) (n + 1) = false := by
  simp [loopCond]

theorem classifyStatus_cont {s : String}
    (h : s = "PENDING" ∨ s = "IN_PROGRESS") : classifyStatus s = .cont := by
  rcases h with h | h <;> subst h <;> decide

theorem classifyStatus_failure {s : String} (h1 : s ≠ "SUCCESSFUL") (h2 : s ≠ "PENDING")
    (h3 : s ≠ "IN_PROGRESS") : classifyStatus s = .failure := by
  simp [classifyStatus, h1, h2, h3]

theorem completeLoop_cont_exhaust (statusQuery : Nat → String) (N : Nat)
    (hcont : ∀ k, classifyStatus (statusQuery k) = .cont) :
    ∀ j attempts last fuel, attempts + j = N + 1 → j < fuel →
      (∀ b, attempts = b + 1 → last = some (statusQuery b)) →
      completeLoop statusQuery (some N) fuel attempts last =
        some (.returned false (statusQuery N) (N + 1) (N + 1)) := by
  intro j
  induction j with
  | zero =>
    intro attempts last fuel hsum hfuel hlast
    cases fuel with
    | zero => omega
    | succ f =>
      have ha : attempts = N + 1 := by omega
      subst ha
      have hl : last = some (statusQuery N) := hlast N rfl
      simp [completeLoop, loopCond_succ_self, hl]
  | succ j ih =>
    intro attempts last fuel hsum hfuel hlast
    cases fuel with
    | zero => omega
    | succ f =>
      have hc : loopCond (some N) attempts = true := by
        simp only [loopCond, decide_eq_true_eq]; omega
      have step : completeLoop statusQuery (some N) (f + 1) attempts last =
          completeLoop statusQuery (some N) f (attempts + 1) (some (statusQuery attempts)) := by
        simp [completeLoop, hc, hcont attempts]
      rw [step]
      exact ih (attempts + 1) (some (statusQuery attempts)) f (by omega) (by omega)
        (fun b hb => by
          have hba : b = attempts := by omega
          subst hba; rfl)

theorem completeLoop_fail (statusQuery : Nat → String) (maxAttempts : Option Nat) (k : Nat)
    (hcond : ∀ i, i ≤ k → loopCond maxAttempts i = true)
    (hcont : ∀ i, i < k → classifyStatus (statusQuery i) = .cont)
    (hfail : classifyStatus (statusQuery k) = .failure) :
    ∀ j attempts last fuel, attempts + j = k → j < fuel →
      completeLoop statusQuery maxAttempts fuel attempts last =
        some (.returned false (statusQuery k) (k + 1) k) := by
  intro j
  induction j with
  | zero =>
    intro attempts last fuel hsum hfuel
    cases fuel with
    | zero => omega
    | succ f =>
      have ha : attempts = k := by omega
      subst ha
      simp [completeLoop, hcond attempts le_rfl, hfail]
  | succ j ih =>
    intro attempts last fuel hsum hfuel
    cases fuel with
    | zero => omega
    | succ f =>
      have step : completeLoop statusQuery maxAttempts (f + 1) attempts last =
          completeLoop statusQuery maxAttempts f (attempts + 1) (some (statusQuery attempts)) := by
        simp [completeLoop, hcond attempts (by omega), hcont attempts (by omega)]
      rw [step]
      exact ih (attempts + 1) (some (statusQuery attempts)) f (by omega) (by omega)

theorem locateLoop_empty_exhaust (listQuery : Nat → List String) (N : Nat)
    (hempty : ∀ k, listQuery k = []) :
    ∀ j attempts last fuel, attempts + j = N + 1 → j < fuel →
      (∀ b, attempts = b + 1 → last = some []) →
      locateLoop listQuery true (some N) fuel attempts last =
        some (.indexError (N + 1) (N + 1)) := by
  intro j
  induction j with
  | zero =>
    intro attempts last fuel hsum hfuel hlast
    cases fuel with
    | zero => omega
    | succ f =>
      have ha : attempts = N + 1 := by omega
      subst ha
      have hl : last = some [] := hlast N rfl
      simp [locateLoop, loopCond_succ_self, hl]
  | succ j ih =>
    intro attempts last fuel hsum hfuel hlast
    cases fuel with
    | zero => omega
    | succ f =>
      have hc : loopCond (some N) attempts = true := by
        simp only [loopCond, decide_eq_true_eq]; omega
      have step : locateLoop listQuery true (some N) (f + 1) attempts last =
          locateLoop listQuery true (some N) f (attempts + 1) (some []) := by
        simp [locateLoop, hc, hempty attempts]
      rw [step]
      exact ih (attempts + 1) (some []) f (by omega) (by omega) (fun b _ => rfl)

theorem locateLoop_found_first (listQuery : Nat → List String) (waitForStart : Bool)
    (maxAttempts : Option Nat) (arn : String) (rest : List String) (fuel : Nat)
    (h : listQuery 0 = arn :: rest) (hf : 0 < fuel) :
    get_latest_deployment_arn listQuery waitForStart maxAttempts fuel =
      some (.found arn 1 0) := by
  cases fuel with
  | zero => omega
  | succ f =>
    unfold get_latest_deployment_arn
    simp [locateLoop, loopCond_zero, h]

theorem stabilityLoop_exceeded_exhaust (stabilityQuery : Nat → StabilityResponse) (N : Nat)
    (hmax : ∀ k, stabilityQuery k = .waiterError "Max attempts exceeded") :
    ∀ j attempts fuel, attempts + j = N + 1 → j < fuel →
      stabilityLoop stabilityQuery (some N) fuel attempts =
        some (.notStable (N + 1) (N + 1)) := by
  intro j
  induction j with
  | zero =>
    intro attempts fuel hsum hfuel
    cases fuel with
    | zero => omega
    | succ f =>
      have ha : attempts = N + 1 := by omega
      subst ha
      simp [stabilityLoop, loopCond_succ_self]
  | succ j ih =>
    intro attempts fuel hsum hfuel
    cases fuel with
    | zero => omega
    | succ f =>
      have hc : loopCond (some N) attempts = true := by
        simp only [loopCond, decide_eq_true_eq]; omega
      have step : stabilityLoop stabilityQuery (some N) (f + 1) attempts =
          stabilityLoop stabilityQuery (some N) f (attempts + 1) := by
        simp [stabilityLoop, hc, hmax attempts]
      rw [step]
      exact ih (attempts + 1) f (by omega) (by omega)

theorem stabilityLoop_raised (stabilityQuery : Nat → StabilityResponse) (m : Option Nat)
    (k : Nat) (reason : String)
    (hcond : ∀ i, i ≤ k → loopCond m i = true)
    (hpre : ∀ i, i < k → stabilityQuery i = .waiterError "Max attempts exceeded")
    (hk : stabilityQuery k = .waiterError reason) (hr : reason ≠ "Max attempts exceeded") :
    ∀ j attempts fuel, attempts + j = k → j < fuel →
      stabilityLoop stabilityQuery m fuel attempts =
        some (.raised reason (k + 1) k) := by
  intro j
  induction j with
  | zero =>
    intro attempts fuel hsum hfuel
    cases fuel with
    | zero => omega
    | succ f =>
      have ha : attempts = k := by omega
      subst ha
      simp [stabilityLoop, hcond attempts le_rfl, hk, hr]
  | succ j ih =>
    intro attempts fuel hsum hfuel
    cases fuel with
    | zero => omega
    | succ f =>
      have step : stabilityLoop stabilityQuery m (f + 1) attempts =
          stabilityLoop stabilityQuery m f (attempts + 1) := by
        simp [stabilityLoop, hcond attempts (by omega), hpre attempts (by omega)]
      rw [step]
      exact ih (attempts + 1) f (by omega) (by omega)

end AwsAnnoying

namespace AwsAnnoying

/-! ## Claim theorems for the deployment waiter -/

theorem loopCond_none (attempts : Nat) : loopCond none attempts = true := rfl

/-- C1: each of the three polling loops (locate, await completion, await stability), run
with `max_attempts = N` against responses that never reach a terminal outcome, issues
exactly `N + 1` queries before giving up: the counter starts at 0 and the guard
`attempts <= max_attempts` is checked before each query. -/
theorem C1_polling_loops_issue_max_attempts_plus_one_queries
    (N fuel : Nat) (listQuery : Nat → List String) (statusQuery : Nat → String)
    (stabilityQuery : Nat → StabilityResponse) (hfuel : N + 1 < fuel)
    (hempty : ∀ k, listQuery k = [])
    (hcont : ∀ k, statusQuery k = "PENDING" ∨ statusQuery k = "IN_PROGRESS")
    (hmax : ∀ k, stabilityQuery k = .waiterError "Max attempts exceeded") :
    get_latest_deployment_arn listQuery true (some N) fuel =
      some (.indexError (N + 1) (N + 1)) ∧
    wait_for_deployment_complete statusQuery (some N) fuel =
      some (.returned false (statusQuery N) (N + 1) (N + 1)) ∧
    wait_for_service_stability stabilityQuery (some N) fuel =
      some (.notStable (N + 1) (N + 1)) := by
  refine ⟨?_, ?_, ?_⟩
  · exact locateLoop_empty_exhaust listQuery N hempty (N + 1) 0 none fuel (by omega) hfuel
      (fun b hb => absurd hb.symm (Nat.succ_ne_zero b))
  · exact completeLoop_cont_exhaust statusQuery N (fun k => classifyStatus_cont (hcont k))
      (N + 1) 0 none fuel (by omega) hfuel (fun b hb => absurd hb.symm (Nat.succ_ne_zero b))
  · exact stabilityLoop_exceeded_exhaust stabilityQuery N hmax (N + 1) 0 fuel (by omega) hfuel

/-- C1 witness: `max_attempts = 2` and constantly non-terminal responses give exactly
three queries in every loop. -/
theorem C1_polling_loops_witness :
    get_latest_deployment_arn (fun _ => []) true (some 2) 4 =
      some (.indexError 3 3) ∧
    wait_for_deployment_complete (fun _ => "PENDING") (some 2) 4 =
      some (.returned false "PENDING" 3 3) ∧
    wait_for_service_stability (fun _ => .waiterError "Max attempts exceeded") (some 2) 4 =
      some (.notStable 3 3) :=
  C1_polling_loops_issue_max_attempts_plus_one_queries 2 4 _ _ _ (by omega)
    (fun _ => rfl) (fun _ => Or.inl rfl) (fun _ => rfl)

/-- C2: the status classification used by the await-completion phase is a total function
that maps `PENDING` and `IN_PROGRESS` to the continue class, `SUCCESSFUL` to terminal
success, each of the six stop/rollback statuses to terminal failure, and sends every
string to exactly one of the three classes. -/
theorem C2_status_classification_partition :
    (classifyStatus "PENDING" = .cont ∧ classifyStatus "IN_PROGRESS" = .cont) ∧
    classifyStatus "SUCCESSFUL" = .success ∧
    (classifyStatus "STOPPED" = .failure ∧ classifyStatus "STOP_REQUESTED" = .failure ∧
     classifyStatus "ROLLBACK_REQUESTED" = .failure ∧
     classifyStatus "ROLLBACK_IN_PROGRESS" = .failure ∧
     classifyStatus "ROLLBACK_SUCCESSFUL" = .failure ∧
     classifyStatus "ROLLBACK_FAILED" = .failure) ∧
    (∀ s : String, classifyStatus s = .success ∨ classifyStatus s = .cont ∨
      classifyStatus s = .failure) := by
  refine ⟨by decide, by decide, by decide, ?_⟩
  intro s
  by_cases h1 : s = "SUCCESSFUL"
  · exact Or.inl (by simp [classifyStatus, h1])
  · by_cases h2 : s = "PENDING" ∨ s = "IN_PROGRESS"
    · exact Or.inr (Or.inl (by simp [classifyStatus, h1, h2]))
    · exact Or.inr (Or.inr (by simp [classifyStatus, h1, h2]))

/-- C3: evaluation of the locate phase at the failing input of the repository's own test
`test_get_latest_deployment_arn_max_attempts_exceeded` (`wait_for_start=True`,
`max_attempts=3`, every response empty): after the four allowed queries the loop falls
through and `running_deployments[0]` raises a bare `IndexError`, not the
`NoRunningDeploymentError` the test and the spec expect. -/
theorem C3_exhausted_locate_raises_index_error :
    get_latest_deployment_arn (fun _ => []) true (some 3) 5 =
      some (.indexError 4 4) := by decide

/-- C5: if the first `k` statuses keep the await-completion loop polling and the `k`-th
observed status is a terminal failure, the loop returns `(False, that status)` at once —
`k + 1` queries, `k` sleeps, nothing after the failing query — and the `wait`
orchestration raises `DeploymentFailedError` carrying that status. -/
theorem C5_first_terminal_failure_returns_immediately
    (listQuery : Nat → List String) (statusQuery : Nat → String)
    (stabilityQuery : Nat → StabilityResponse) (waitForStart waitForStability : Bool)
    (expectedTaskDefinition : Option String) (currentTaskDefinition : String)
    (k fuelLocate fuelComplete fuelStability : Nat)
    (harn : listQuery 0 ≠ [])
    (hcont : ∀ i, i < k → statusQuery i = "PENDING" ∨ statusQuery i = "IN_PROGRESS")
    (hfail : statusQuery k ≠ "SUCCESSFUL" ∧ statusQuery k ≠ "PENDING" ∧
      statusQuery k ≠ "IN_PROGRESS")
    (hfL : 0 < fuelLocate) (hfC : k < fuelComplete) :
    wait_for_deployment_complete statusQuery none fuelComplete =
      some (.returned false (statusQuery k) (k + 1) k) ∧
    wait listQuery statusQuery stabilityQuery waitForStart waitForStability
      expectedTaskDefinition currentTaskDefinition fuelLocate fuelComplete fuelStability =
      some (.deploymentFailed (statusQuery k)) := by
  have hcomplete : wait_for_deployment_complete statusQuery none fuelComplete =
      some (.returned false (statusQuery k) (k + 1) k) :=
    completeLoop_fail statusQuery none k (fun i _ => loopCond_none i)
      (fun i hi => classifyStatus_cont (hcont i hi))
      (classifyStatus_failure hfail.1 hfail.2.1 hfail.2.2)
      k 0 none fuelComplete (by omega) hfC
  refine ⟨hcomplete, ?_⟩
  rcases h0 : listQuery 0 with _ | ⟨arn, rest⟩
  · exact absurd h0 harn
  · have hloc := locateLoop_found_first listQuery waitForStart none arn rest fuelLocate h0 hfL
    unfold wait
    rw [hloc, hcomplete]
    rfl

/-- C5 witness: two in-progress polls followed by `STOPPED` stop the completion loop at
the third query and make `wait` fail with `DeploymentFailedError("STOPPED")`. -/
theorem C5_first_terminal_failure_witness :
    wait_for_deployment_complete (fun i => if i < 2 then "IN_PROGRESS" else "STOPPED")
      none 4 = some (.returned false "STOPPED" 3 2) ∧
    wait (fun _ => ["arn-x"]) (fun i => if i < 2 then "IN_PROGRESS" else "STOPPED")
      (fun _ => .ok) true false none "cur" 1 4 1 =
      some (.deploymentFailed "STOPPED") :=
  C5_first_terminal_failure_returns_immediately _ _ _ true false none "cur" 2 1 4 1
    (by decide) (fun i hi => Or.inr (by simp [hi])) (by decide) (by omega) (by omega)

/-- C7: with `wait_for_start=False` and an empty first response, the locate phase takes
its dedicated no-running-deployment exit (`typer.Exit(0)`) after exactly one query,
with no sleep. -/
theorem C7_no_wait_exits_after_one_query
    (listQuery : Nat → List String) (maxAttempts : Option Nat) (fuel : Nat)
    (hq : listQuery 0 = []) (hf : 0 < fuel) :
    get_latest_deployment_arn listQuery false maxAttempts fuel =
      some (.exitZero 1 0) := by
  cases fuel with
  | zero => omega
  | succ f =>
    unfold get_latest_deployment_arn
    simp [locateLoop, loopCond_zero, hq]

/-- C7 witness at an always-empty backend with `max_attempts = 3`. -/
theorem C7_no_wait_witness :
    get_latest_deployment_arn (fun _ => []) false (some 3) 5 = some (.exitZero 1 0) :=
  C7_no_wait_exits_after_one_query _ (some 3) 5 rfl (by omega)

/-- C8: in the stability phase, a `WaiterError` is swallowed and retried exactly when its
reason is `"Max attempts exceeded"`: any other reason propagates unchanged on the query
that produced it, while a run of `"Max attempts exceeded"` signals is retried (one sleep
each) up to the phase's own budget and ends in a `False` return. -/
theorem C8_stability_error_dichotomy :
    (∀ (stabilityQuery : Nat → StabilityResponse) (m : Option Nat) (k fuel : Nat)
       (reason : String),
       (∀ i, i ≤ k → loopCond m i = true) →
       (∀ i, i < k → stabilityQuery i = .waiterError "Max attempts exceeded") →
       stabilityQuery k = .waiterError reason → reason ≠ "Max attempts exceeded" →
       k < fuel →
       wait_for_service_stability stabilityQuery m fuel =
         some (.raised reason (k + 1) k)) ∧
    (∀ (stabilityQuery : Nat → StabilityResponse) (N fuel : Nat),
       (∀ i, stabilityQuery i = .waiterError "Max attempts exceeded") → N + 1 < fuel →
       wait_for_service_stability stabilityQuery (some N) fuel =
         some (.notStable (N + 1) (N + 1))) := by
  constructor
  · intro stabilityQuery m k fuel reason hcond hpre hk hr hfuel
    exact stabilityLoop_raised stabilityQuery m k reason hcond hpre hk hr k 0 fuel (by omega) hfuel
  · intro stabilityQuery N fuel hmax hfuel
    exact stabilityLoop_exceeded_exhaust stabilityQuery N hmax (N + 1) 0 fuel (by omega) hfuel

/-- C8 witness: a `"boom"` reason propagates on its query after two tolerated signals;
an unbroken run of `"Max attempts exceeded"` signals exhausts `max_attempts = 2`. -/
theorem C8_stability_error_witness :
    wait_for_service_stability
      (fun i => if i < 2 then .waiterError "Max attempts exceeded" else .waiterError "boom")
      none 4 = some (.raised "boom" 3 2) ∧
    wait_for_service_stability (fun _ => .waiterError "Max attempts exceeded") (some 2) 4 =
      some (.notStable 3 3) :=
  ⟨C8_stability_error_dichotomy.1 _ none 2 4 "boom" (fun i _ => loopCond_none i)
      (fun i hi => by simp [hi]) (by decide) (by decide) (by omega),
   C8_stability_error_dichotomy.2 _ 2 4 (fun _ => rfl) (by omega)⟩

end AwsAnnoying

namespace AwsAnnoying

/-! ## Order lemmas for the Python string comparison -/

theorem pyStrLtCore_irrefl (as : List Char) : pyStrLtCore as as = false := by
  induction as with
  | nil => rfl
  | cons a as ih => simp [pyStrLtCore, ih]

theorem pyStrLtCore_asymm : ∀ as bs, pyStrLtCore as bs = true → pyStrLtCore bs as = false := by
  intro as
  induction as with
  | nil =>
    intro bs h
    cases bs with
    | nil => simp [pyStrLtCore] at h
    | cons b bs => simp [pyStrLtCore]
  | cons a as ih =>
    intro bs h
    cases bs with
    | nil => simp [pyStrLtCore] at h
    | cons b bs =>
      simp only [pyStrLtCore] at h ⊢
      by_cases hab : a < b
      · simp [hab, lt_asymm hab]
      · by_cases hba : b < a
        · simp [hab, hba] at h
        · simp only [hab, hba, if_false] at h
          simp [hab, hba, ih bs h]

theorem pyStrLtCore_eq_of_not :
    ∀ as bs, pyStrLtCore as bs = false → pyStrLtCore bs as = false → as = bs := by
  intro as
  induction as with
  | nil =>
    intro bs h1 h2
    cases bs with
    | nil => rfl
    | cons b bs => simp [pyStrLtCore] at h1
  | cons a as ih =>
    intro bs h1 h2
    cases bs with
    | nil => simp [pyStrLtCore] at h2
    | cons b bs =>
      simp only [pyStrLtCore] at h1 h2
      by_cases hab : a < b
      · simp [hab] at h1
      · by_cases hba : b < a
        · simp [hba] at h2
        · have hae : a = b := le_antisymm (not_lt.mp hba) (not_lt.mp hab)
          subst hae
          simp only [lt_irrefl, if_false] at h1 h2
          rw [ih bs h1 h2]

theorem pyStrLtCore_trans :
    ∀ as bs cs, pyStrLtCore as bs = true → pyStrLtCore bs cs = true →
      pyStrLtCore as cs = true := by
  intro as
  induction as with
  | nil =>
    intro bs cs h1 h2
    cases bs with
    | nil => simp [pyStrLtCore] at h1
    | cons b bs =>
      cases cs with
      | nil => simp [pyStrLtCore] at h2
      | cons c cs => simp [pyStrLtCore]
  | cons a as ih =>
    intro bs cs h1 h2
    cases bs with
    | nil => simp [pyStrLtCore] at h1
    | cons b bs =>
      cases cs with
      | nil => simp [pyStrLtCore] at h2
      | cons c cs =>
        simp only [pyStrLtCore] at h1 h2 ⊢
        by_cases hab : a < b
        · by_cases hbc : b < c
          · simp [lt_trans hab hbc]
          · by_cases hcb : c < b
            · simp [hbc, hcb] at h2
            · have hbe : b = c := le_antisymm (not_lt.mp hcb) (not_lt.mp hbc)
              subst hbe
              simp [hab]
        · by_cases hba : b < a
          · simp [hab, hba] at h1
          · have hae : a = b := le_antisymm (not_lt.mp hba) (not_lt.mp hab)
            subst hae
            simp only [lt_irrefl, if_false] at h1
            by_cases hac : a < c
            · simp [hac]
            · by_cases hca : c < a
              · simp [hac, hca] at h2
              · have hae2 : a = c := le_antisymm (not_lt.mp hca) (not_lt.mp hac)
                subst hae2
                simp only [lt_irrefl, if_false] at h2 ⊢
                exact ih bs cs h1 h2

theorem pyStrLt_asymm {a b : String} (h : pyStrLt a b = true) : pyStrLt b a = false :=
  pyStrLtCore_asymm _ _ h

theorem pyStrLt_trans {a b c : String} (h1 : pyStrLt a b = true) (h2 : pyStrLt b c = true) :
    pyStrLt a c = true :=
  pyStrLtCore_trans _ _ _ h1 h2

theorem pyStrLt_eq_of_not {a b : String} (h1 : pyStrLt a b = false)
    (h2 : pyStrLt b a = false) : a = b := by
  have h3 : a.data = b.data := pyStrLtCore_eq_of_not _ _ h1 h2
  cases a
  cases b
  exact congrArg String.mk h3

instance : IsTotal (String × Variables) keyLe := ⟨by
  intro a b
  by_cases h1 : pyStrLt a.1 b.1 = true
  · exact Or.inl (Or.inl h1)
  · by_cases h2 : pyStrLt b.1 a.1 = true
    · exact Or.inr (Or.inl h2)
    · exact Or.inl (Or.inr (pyStrLt_eq_of_not (Bool.eq_false_iff.mpr h1)
        (Bool.eq_false_iff.mpr h2)))⟩

instance : IsTrans (String × Variables) keyLe := ⟨by
  intro a b c hab hbc
  rcases hab with hab | hab
  · rcases hbc with hbc | hbc
    · exact Or.inl (pyStrLt_trans hab hbc)
    · exact Or.inl (by rw [← hbc]; exact hab)
  · rcases hbc with hbc | hbc
    · exact Or.inl (by rw [hab]; exact hbc)
    · exact Or.inr (hab.trans hbc)⟩

/-- The strict-or-equal companion of `keyLe` used to identify two sorted lists:
it is antisymmetric outright, and any `keyLe`-sorted list with pairwise-distinct
keys is also sorted for it. -/
def keyLtEq (a b : String × Variables) : Prop := pyStrLt a.1 b.1 = true ∨ a = b

instance : IsAntisymm (String × Variables) keyLtEq := ⟨by
  intro a b hab hba
  rcases hab with hab | hab
  · rcases hba with hba | hba
    · have := pyStrLt_asymm hab
      rw [hba] at this
      exact absurd this (by decide)
    · exact hba.symm
  · exact hab⟩

theorem sorted_keyLtEq_of_sorted_nodup {l : List (String × Variables)}
    (hs : List.Sorted keyLe l) (hnd : (l.map Prod.fst).Nodup) :
    List.Sorted keyLtEq l := by
  have hnd' : List.Pairwise (fun a b : String × Variables => a.1 ≠ b.1) l := by
    rw [List.Nodup, List.pairwise_map] at hnd
    exact hnd
  refine (List.Pairwise.and hs hnd').imp ?_
  intro a b hab
  rcases hab.1 with h | h
  · exact Or.inl h
  · exact absurd h hab.2

/-- The merged result of `_load_variables` depends only on which `(order key, payload)`
entries are present, not on the dict's insertion order: sorting by order key erases any
permutation of inputs with distinct order keys. -/
theorem mergeInOrder_perm_invariant (l₁ l₂ : List (String × Variables))
    (hperm : l₁.Perm l₂) (hnd : (l₁.map Prod.fst).Nodup) :
    mergeInOrder l₁ = mergeInOrder l₂ := by
  have hp : (sortByKey l₁).Perm (sortByKey l₂) :=
    (List.perm_insertionSort keyLe l₁).trans
      (hperm.trans (List.perm_insertionSort keyLe l₂).symm)
  have hnds₁ : ((sortByKey l₁).map Prod.fst).Nodup :=
    (((List.perm_insertionSort keyLe l₁).map Prod.fst).nodup_iff).mpr hnd
  have hnds₂ : ((sortByKey l₂).map Prod.fst).Nodup :=
    (((List.perm_insertionSort keyLe l₂).map Prod.fst).nodup_iff).mpr
      (((hperm.map Prod.fst).nodup_iff).mp hnd)
  have heq : sortByKey l₁ = sortByKey l₂ :=
    List.eq_of_perm_of_sorted hp
      (sorted_keyLtEq_of_sorted_nodup (List.sorted_insertionSort keyLe l₁) hnds₁)
      (sorted_keyLtEq_of_sorted_nodup (List.sorted_insertionSort keyLe l₂) hnds₂)
  unfold mergeInOrder
  rw [heq]

end AwsAnnoying

namespace AwsAnnoying

/-! ## Soundness of the ARN partition -/

theorem splitArns_sound :
    ∀ (l s p : List (String × String)), splitArns l = .ok (s, p) →
      (∀ kv ∈ s, kv ∈ l ∧ startsWithPy kv.2 "arn:aws:secretsmanager:" = true) ∧
      (∀ kv ∈ p, kv ∈ l ∧ startsWithPy kv.2 "arn:aws:secretsmanager:" = false) := by
  intro l
  induction l with
  | nil =>
    intro s p h
    simp only [splitArns, Except.ok.injEq, Prod.mk.injEq] at h
    obtain ⟨rfl, rfl⟩ := h
    exact ⟨fun kv hkv => absurd hkv (List.not_mem_nil kv),
           fun kv hkv => absurd hkv (List.not_mem_nil kv)⟩
  | cons kv0 rest ih =>
    intro s p h
    obtain ⟨idx, arn⟩ := kv0
    rw [splitArns] at h
    by_cases h1 : startsWithPy arn "arn:aws:secretsmanager:" = true
    · rw [if_pos h1] at h
      cases hsp : splitArns rest with
      | error e => rw [hsp] at h; exact absurd h (by simp)
      | ok sp =>
        obtain ⟨s', p'⟩ := sp
        rw [hsp] at h
        simp only [Except.ok.injEq, Prod.mk.injEq] at h
        obtain ⟨rfl, rfl⟩ := h
        obtain ⟨ihs, ihp⟩ := ih s' p' hsp
        constructor
        · intro kv hkv
          rcases List.mem_cons.mp hkv with rfl | hkv
          · exact ⟨List.mem_cons_self _ _, h1⟩
          · exact ⟨List.mem_cons_of_mem _ (ihs kv hkv).1, (ihs kv hkv).2⟩
        · intro kv hkv
          exact ⟨List.mem_cons_of_mem _ (ihp kv hkv).1, (ihp kv hkv).2⟩
    · rw [if_neg h1] at h
      by_cases h2 : startsWithPy arn "arn:aws:ssm:" = true
      · rw [if_pos h2] at h
        cases hsp : splitArns rest with
        | error e => rw [hsp] at h; exact absurd h (by simp)
        | ok sp =>
          obtain ⟨s', p'⟩ := sp
          rw [hsp] at h
          simp only [Except.ok.injEq, Prod.mk.injEq] at h
          obtain ⟨rfl, rfl⟩ := h
          obtain ⟨ihs, ihp⟩ := ih s' p' hsp
          constructor
          · intro kv hkv
            exact ⟨List.mem_cons_of_mem _ (ihs kv hkv).1, (ihs kv hkv).2⟩
          · intro kv hkv
            rcases List.mem_cons.mp hkv with rfl | hkv
            · exact ⟨List.mem_cons_self _ _, Bool.eq_false_iff.mpr h1⟩
            · exact ⟨List.mem_cons_of_mem _ (ihp kv hkv).1, (ihp kv hkv).2⟩
      · rw [if_neg h2] at h
        exact absurd h (by simp)

theorem splitArns_error_unsupported :
    ∀ (l : List (String × String)) (e : LoadError), splitArns l = .error e →
      ∃ arn, e = .unsupportedResource arn := by
  intro l
  induction l with
  | nil => intro e h; exact absurd h (by simp [splitArns])
  | cons kv0 rest ih =>
    intro e h
    obtain ⟨idx, arn⟩ := kv0
    rw [splitArns] at h
    by_cases h1 : startsWithPy arn "arn:aws:secretsmanager:" = true
    · rw [if_pos h1] at h
      cases hsp : splitArns rest with
      | error e' =>
        rw [hsp] at h
        simp only [Except.error.injEq] at h
        exact h ▸ ih e' hsp
      | ok sp => rw [hsp] at h; exact absurd h (by simp)
    · rw [if_neg h1] at h
      by_cases h2 : startsWithPy arn "arn:aws:ssm:" = true
      · rw [if_pos h2] at h
        cases hsp : splitArns rest with
        | error e' =>
          rw [hsp] at h
          simp only [Except.error.injEq] at h
          exact h ▸ ih e' hsp
        | ok sp => rw [hsp] at h; exact absurd h (by simp)
      · rw [if_neg h2] at h
        simp only [Except.error.injEq] at h
        exact ⟨arn, h.symm⟩

/-- With distinct order keys (as for any input coming from a Python dict), the two
partitions produced by `splitArns` can never share an order key, so the conflict check
of `_load_variables` never fires. -/
theorem keysConflict_false_of_nodup (mapArns s p : List (String × String))
    (hnd : (mapArns.map Prod.fst).Nodup) (h : splitArns mapArns = .ok (s, p)) :
    keysConflict s p = false := by
  obtain ⟨hs, hp⟩ := splitArns_sound mapArns s p h
  apply Bool.eq_false_iff.mpr
  intro hany
  rw [keysConflict, List.any_eq_true] at hany
  obtain ⟨kv, hkv, hinner⟩ := hany
  rw [List.any_eq_true] at hinner
  obtain ⟨kv2, hkv2, heq⟩ := hinner
  have heq' : kv2.1 = kv.1 := by simpa using heq
  have hv1 := hs kv hkv
  have hv2 := hp kv2 hkv2
  have hkveq : kv = kv2 := List.inj_on_of_nodup_map hnd hv1.1 hv2.1 heq'.symm
  have hcontra := hv1.2
  rw [hkveq, hv2.2] at hcontra
  exact absurd hcontra (by decide)

end AwsAnnoying

namespace AwsAnnoying

/-! ## Claim theorems for the variable merger -/

/-- Concrete secret ARN whose payload shares the variable name `A` with a parameter. -/
def c4SecretArn : String := "arn:aws:secretsmanager:us-east-1:123456789012:secret:app"

/-- Concrete parameter ARN whose payload shares the variable name `A` with a secret. -/
def c4ParamArn : String := "arn:aws:ssm:us-east-1:123456789012:parameter/app"

/-- Resolution oracle for the C4 input: the secret resolves to `{A: "x"}` and the
parameter to `{A: "y"}` — the same variable name from both backends. -/
def c4Resolve : String → Variables := fun arn =>
  if arn = c4SecretArn then [("A", "x")]
  else if arn = c4ParamArn then [("A", "y")]
  else []

/-- C4 counterexample: an input whose variable name `A` is sourced both from a Secrets
Manager ARN and from an SSM parameter ARN is *not* rejected — `_load_variables` performs
the merge and returns `{A: "y"}`, so no fatal configuration error precedes the merge. -/
theorem C4_counterexample_cross_partition_collision_merges :
    ("A" ∈ (c4Resolve c4SecretArn).map Prod.fst) ∧
    ("A" ∈ (c4Resolve c4ParamArn).map Prod.fst) ∧
    load_variables_core [("0", c4SecretArn), ("1", c4ParamArn)] c4Resolve =
      .ok [("A", "y")] :=
  ⟨by decide, by decide, by rfl⟩

/-- C4 amended: the conflict check performed before the merge compares the *order keys*
of the secrets partition with those of the parameters partition, not variable names;
since each order key of the input mapping is routed to exactly one partition, the check
never fires for an input with distinct order keys, and cross-partition variable-name
collisions are resolved silently by the merge instead of raising. -/
theorem C4_amended_conflict_check_is_on_order_keys
    (mapArns : List (String × String)) (resolve : String → Variables)
    (hnd : (mapArns.map Prod.fst).Nodup) :
    (∀ s p, splitArns mapArns = .ok (s, p) → keysConflict s p = false) ∧
    load_variables_core mapArns resolve ≠ .error .conflictingKeys := by
  refine ⟨fun s p h => keysConflict_false_of_nodup mapArns s p hnd h, ?_⟩
  intro hcontra
  unfold load_variables_core at hcontra
  cases h : splitArns mapArns with
  | error e =>
    rw [h] at hcontra
    obtain ⟨arn, rfl⟩ := splitArns_error_unsupported mapArns e h
    simp at hcontra
  | ok sp =>
    obtain ⟨s, p⟩ := sp
    rw [h] at hcontra
    simp [keysConflict_false_of_nodup mapArns s p hnd h] at hcontra

/-- C4 amended witness at the counterexample input (distinct order keys `"0"`, `"1"`). -/
theorem C4_amended_witness :
    (∀ s p, splitArns [("0", c4SecretArn), ("1", c4ParamArn)] = .ok (s, p) →
      keysConflict s p = false) ∧
    load_variables_core [("0", c4SecretArn), ("1", c4ParamArn)] c4Resolve ≠
      .error .conflictingKeys :=
  C4_amended_conflict_check_is_on_order_keys _ c4Resolve (by decide)

/-- Concrete source ARNs of the spec's Variable Merger example. -/
def c6SecretArn : String := "arn:aws:secretsmanager:us-east-1:123456789012:secret:app"

def c6ParamArn : String := "arn:aws:ssm:us-east-1:123456789012:parameter/app"

def c6ParamArn2 : String := "arn:aws:ssm:us-east-1:123456789012:parameter/override"

/-- Resolution oracle of the spec's Variable Merger example:
`secretArn → {A: "x"}`, `paramArn → {A: "y", B: "z"}`, `paramArn2 → {B: "w"}`. -/
def c6Resolve : String → Variables := fun arn =>
  if arn = c6SecretArn then [("A", "x")]
  else if arn = c6ParamArn then [("A", "y"), ("B", "z")]
  else if arn = c6ParamArn2 then [("B", "w")]
  else []

/-- C6: the merged result is determined solely by the ascending string sort of the order
keys — it is invariant under permuting the insertion order of entries with distinct order
keys — and on the spec's example `{"0" → {A:x}, "1" → {A:y,B:z}, "900_override" → {B:w}}`
it equals `{A: "y", B: "w"}`. -/
theorem C6_merge_determined_by_order_key_sort
    (l₁ l₂ : List (String × Variables)) (hperm : l₁.Perm l₂)
    (hnd : (l₁.map Prod.fst).Nodup) :
    mergeInOrder l₁ = mergeInOrder l₂ ∧
    load_variables_core
      [("0", c6SecretArn), ("1", c6ParamArn), ("900_override", c6ParamArn2)] c6Resolve =
      .ok [("A", "y"), ("B", "w")] :=
  ⟨mergeInOrder_perm_invariant l₁ l₂ hperm hnd, by rfl⟩

/-- C6 witness: a two-entry input merged identically under both insertion orders. -/
theorem C6_merge_witness :
    mergeInOrder [("1", [("A", "y"), ("B", "z")]), ("0", [("A", "x")])] =
      mergeInOrder [("0", [("A", "x")]), ("1", [("A", "y"), ("B", "z")])] ∧
    load_variables_core
      [("0", c6SecretArn), ("1", c6ParamArn), ("900_override", c6ParamArn2)] c6Resolve =
      .ok [("A", "y"), ("B", "w")] :=
  C6_merge_determined_by_order_key_sort _ _ (List.Perm.swap _ _ _) (by decide)

/-- Eleven parameter ARNs supplied positionally, so that order keys `"0"` … `"10"` are
assigned; positions 2 and 10 both define the variable `B`. -/
def c10Arns : List String :=
  ["arn:aws:ssm:p0", "arn:aws:ssm:p1", "arn:aws:ssm:p2", "arn:aws:ssm:p3",
   "arn:aws:ssm:p4", "arn:aws:ssm:p5", "arn:aws:ssm:p6", "arn:aws:ssm:p7",
   "arn:aws:ssm:p8", "arn:aws:ssm:p9", "arn:aws:ssm:p10"]

/-- Resolution oracle for the C10 input: the ARNs at positions 2 and 10 collide on the
variable name `B`. -/
def c10Resolve : String → Variables := fun arn =>
  if arn = "arn:aws:ssm:p2" then [("B", "pos2")]
  else if arn = "arn:aws:ssm:p10" then [("B", "pos10")]
  else []

/-- C10: positional `--arns` input gets the decimal string of the 0-based index as order
key; the merge then sorts those strings, and `"10" < "2"` in that order, so with eleven
ARNs the ARN at position 2 is merged *after* the one at position 10 and wins the `B`
collision — contrary to the advertised load-in-ARN-order behavior. -/
theorem C10_string_sorted_indices_break_positional_order
    (arns : List String) (i : Nat) :
    (mapArnsByIndex arns)[i]? = (arns[i]?).map (fun arn => (toString i, arn)) ∧
    pyStrLt "10" "2" = true ∧
    load_variables_core (mapArnsByIndex c10Arns) c10Resolve = .ok [("B", "pos2")] := by
  refine ⟨?_, by decide, by rfl⟩
  unfold mapArnsByIndex
  rw [List.getElem?_map, List.getElem?_enum]
  cases arns[i]? <;> rfl

end AwsAnnoying
